import Mathlib

/-!
Verification development for the sniprrr snippet manager.

The definitions below are a shallow embedding of the Rust sources:

* `Snippet` embeds `src/models.rs`.
* The JSON codec (`to_string` / `from_str`) models the external
  `serde_json` crate specialized to `Vec<Snippet>`: `to_string` follows
  serde_json's compact serializer (field order `title`, `description`,
  string escaping with `\"`, `\\`, `\b`, `\t`, `\n`, `\f`, `\r` and
  `\u00XX` for the remaining control characters, lowercase hex digits);
  `from_str` is a recursive-descent reader of that grammar (it accepts
  exactly the serializer's output language plus the standard escape
  forms; insignificant whitespace is not modelled because the
  serializer never emits it and no claim depends on it).
* `write_messages_to_file` / `load_messages_from_file` embed
  `src/file_utils.rs`, with the filesystem and platform effects made
  explicit: `FsEnv` records the outcomes of `dirs::config_dir()`,
  `DirBuilder::create`, `fs::write` and `fs::read_to_string`, and the
  single file `<config dir>/sniprrr/messages.json` is an
  `Option String` (`none` = the path does not exist).
* `AppState`, `AppState.next`, `AppState.previous`,
  `get_selected_snippet` and `step` embed `src/main.rs`; `step` is one
  iteration of the `run_app` event loop applied to one key event, with
  the clipboard and write outcomes supplied by a `StepEnv`.
  `mainHandleResult` embeds the tail of `main` that inspects the
  result of `run_app`.

Machine-integer details: `usize` subtraction in `AppState.next` /
`AppState.previous` is modelled with release-profile wrapping semantics
(`rusizeSub1`); a debug build instead panics on the wrapping case.
`Vec::remove` with an out-of-bounds index panics in every profile and
is modelled by `StepResult.Panic`.
-/

/-- Snippet, from src/models.rs: a title plus a description. -/
structure Snippet where
  title : String
  description : String
deriving DecidableEq, Repr

/-- Opening curly brace character (ASCII 123). -/
def lbrace : Char := Char.ofNat 123

/-- Closing curly brace character (ASCII 125). -/
def rbrace : Char := Char.ofNat 125

/-- Lowercase hexadecimal digit for a value below 16, as serde_json emits. -/
def hexDigitChar (n : Nat) : Char :=
  if n < 10 then Char.ofNat (48 + n) else Char.ofNat (87 + n)

/-- Value of one hexadecimal digit character, if it is one. -/
def hexVal (c : Char) : Option Nat :=
  if 48 ≤ c.toNat ∧ c.toNat ≤ 57 then some (c.toNat - 48)
  else if 97 ≤ c.toNat ∧ c.toNat ≤ 102 then some (c.toNat - 87)
  else if 65 ≤ c.toNat ∧ c.toNat ≤ 70 then some (c.toNat - 55)
  else none

/-- Escape of one character inside a JSON string, following serde_json:
quote and backslash get a backslash escape, the five short control
escapes are used where they exist, every other control character below
0x20 becomes a lowercase-hex unicode escape, and all other characters
are emitted verbatim. -/
def escChar (c : Char) : List Char :=
  if c = '"' then ['\\', '"']
  else if c = '\\' then ['\\', '\\']
  else if c = Char.ofNat 8 then ['\\', 'b']
  else if c = Char.ofNat 9 then ['\\', 't']
  else if c = Char.ofNat 10 then ['\\', 'n']
  else if c = Char.ofNat 12 then ['\\', 'f']
  else if c = Char.ofNat 13 then ['\\', 'r']
  else if c.toNat < 32 then
    ['\\', 'u', '0', '0', hexDigitChar (c.toNat / 16), hexDigitChar (c.toNat % 16)]
  else [c]

/-- Escape a whole character sequence for inclusion in a JSON string. -/
def escapeChars : List Char → List Char
  | [] => []
  | c :: cs => escChar c ++ escapeChars cs

/-- JSON string literal (quotes included) for a Rust String. -/
def encodeJsonString (s : String) : List Char :=
  '"' :: escapeChars s.data ++ ['"']

/-- Characters of the object opener up to the title value:
the text \x7b"title": . -/
def titleKey : List Char := lbrace :: '"' :: "title".data ++ ['"', ':']

/-- Characters between the title value and the description value:
the text ,"description": . -/
def descKey : List Char := ',' :: '"' :: "description".data ++ ['"', ':']

/-- JSON object for one snippet, exactly as serde_json serializes
the Snippet struct (declaration field order, no whitespace). -/
def encodeSnippet (s : Snippet) : List Char :=
  titleKey ++ encodeJsonString s.title ++ descKey ++
    encodeJsonString s.description ++ [rbrace]

/-- Comma-separated encodings of a list of snippets (array brackets
not included). -/
def encodeSnippets : List Snippet → List Char
  | [] => []
  | [s] => encodeSnippet s
  | s :: rest => encodeSnippet s ++ ',' :: encodeSnippets rest

/-- Model of serde_json::to_string for a Vec of Snippet. Serialization
of plain string data cannot fail, so this is total (the source unwraps
the Result). -/
def to_string (l : List Snippet) : String :=
  String.mk ('[' :: encodeSnippets l ++ [']'])

/-- Consume an expected exact character sequence from the front of the
input, returning the remainder. -/
def consumeExact : List Char → List Char → Option (List Char)
  | [], input => some input
  | _ :: _, [] => none
  | p :: ps, c :: cs => if c = p then consumeExact ps cs else none

/-- Read four hexadecimal digits of a unicode escape, returning the
decoded character and the remaining input. -/
def parseHex4 : List Char → Option (Char × List Char)
  | d1 :: d2 :: d3 :: d4 :: rest =>
    match hexVal d1, hexVal d2, hexVal d3, hexVal d4 with
    | some a, some b, some c, some d =>
      some (Char.ofNat (4096 * a + 256 * b + 16 * c + d), rest)
    | _, _, _, _ => none
  | _ => none

/-- Decode one escape sequence (the part after the backslash),
returning the decoded character and the remaining input. -/
def unescapeOne (e : Char) (rest : List Char) : Option (Char × List Char) :=
  if e = '"' then some ('"', rest)
  else if e = '\\' then some ('\\', rest)
  else if e = '/' then some ('/', rest)
  else if e = 'b' then some (Char.ofNat 8, rest)
  else if e = 't' then some (Char.ofNat 9, rest)
  else if e = 'n' then some (Char.ofNat 10, rest)
  else if e = 'f' then some (Char.ofNat 12, rest)
  else if e = 'r' then some (Char.ofNat 13, rest)
  else if e = 'u' then parseHex4 rest
  else none

/-- Read the body of a JSON string up to and including the closing
quote, decoding escapes; returns the decoded characters and the
remaining input. The fuel argument bounds the number of decoded
characters; callers pass the input length, which always suffices
because every decoded character consumes at least one input
character. -/
def parseJsonStringBody : Nat → List Char → Option (List Char × List Char)
  | 0, _ => none
  | _ + 1, [] => none
  | fuel + 1, c :: rest =>
    if c = '"' then some ([], rest)
    else if c = '\\' then
      match rest with
      | [] => none
      | e :: rest2 =>
        match unescapeOne e rest2 with
        | some (d, rest3) => (parseJsonStringBody fuel rest3).map (fun p => (d :: p.1, p.2))
        | none => none
    else (parseJsonStringBody fuel rest).map (fun p => (c :: p.1, p.2))

/-- Read a complete JSON string literal (with quotes). -/
def parseJsonString (input : List Char) : Option (String × List Char) := do
  let r1 ← consumeExact ['"'] input
  let (cs, r2) ← parseJsonStringBody input.length r1
  some (String.mk cs, r2)

/-- Read one snippet object: \x7b"title":STR,"description":STR\x7d. -/
def parseSnippetObj (input : List Char) : Option (Snippet × List Char) := do
  let r1 ← consumeExact titleKey input
  let (t, r2) ← parseJsonString r1
  let r3 ← consumeExact descKey r2
  let (d, r4) ← parseJsonString r3
  let r5 ← consumeExact [rbrace] r4
  some (⟨t, d⟩, r5)

/-- Read a nonempty comma-separated run of snippet objects terminated
by the closing bracket. The fuel argument bounds the number of
elements; callers pass the input length. -/
def parseSnippetListAux : Nat → List Char → Option (List Snippet × List Char)
  | 0, _ => none
  | fuel + 1, input => do
    let (s, rest) ← parseSnippetObj input
    match rest with
    | c :: rest2 =>
      if c = ',' then do
        let (l, rest3) ← parseSnippetListAux fuel rest2
        some (s :: l, rest3)
      else if c = ']' then some ([s], rest2)
      else none
    | [] => none

/-- Model of serde_json::from_str for a Vec of Snippet: a JSON array of
snippet objects, with the whole input consumed; any other input is a
parse error (none). In particular the empty string is an error. -/
def from_str (s : String) : Option (List Snippet) :=
  match s.data with
  | c :: rest =>
    if c = '[' then
      match rest with
      | d :: rest2 =>
        if d = ']' then (if rest2 = [] then some [] else none)
        else
          match parseSnippetListAux s.data.length rest with
          | some (l, r) => if r = [] then some l else none
          | none => none
      | [] => none
    else none
  | [] => none

/-- Outcomes of the platform and filesystem calls made by
src/file_utils.rs: availability of dirs::config_dir(), success of the
recursive DirBuilder::create, of fs::write, and of
fs::read_to_string. -/
structure FsEnv where
  config_dir_available : Bool
  create_dir_ok : Bool
  write_ok : Bool
  read_ok : Bool
deriving DecidableEq, Repr

/-- Embedding of write_messages_to_file from src/file_utils.rs. The
messages.json file is an Option String (none = absent); on success the
result is the new file contents. Error payloads are descriptive
strings standing for the io::Error values. -/
def write_messages_to_file (env : FsEnv) (_file : Option String) (data : String) :
    Except String (Option String) :=
  if env.config_dir_available = false then .error "No app config dir"
  else if env.create_dir_ok = false then .error "could not create config dir"
  else if env.write_ok = false then .error "write failed"
  else .ok (some data)

/-- Embedding of load_messages_from_file from src/file_utils.rs: every
failure path (no config dir, absent file, unreadable file, parse
error) degrades to the empty list; the return type has no error case,
mirroring the Rust signature Vec of Snippet. -/
def load_messages_from_file (env : FsEnv) (file : Option String) : List Snippet :=
  if env.config_dir_available = false then []
  else
    match file with
    | none => []
    | some contents =>
      if env.read_ok = false then []
      else
        match from_str contents with
        | some snippets => snippets
        | none => []

/-- InputMode from src/main.rs; Normal is the spec's Browsing mode. -/
inductive InputMode
  | Normal
  | Editing
deriving DecidableEq, Repr

/-- MAX_INPUT_COUNT from src/main.rs (i8 constant, the spec's
FIELD_COUNT). -/
def MAX_INPUT_COUNT : Int := 2

/-- INPUT_TITLE_INDEX from src/main.rs. -/
def INPUT_TITLE_INDEX : Int := 0

/-- INPUT_DESCRIPTION_INDEX from src/main.rs. -/
def INPUT_DESCRIPTION_INDEX : Int := 1

/-- Model of ratatui's TableState: only the selected index is relevant
to the program logic (the scroll offset is render-only and omitted). -/
structure TableState where
  selected : Option Nat
deriving DecidableEq, Repr

/-- AppState from src/main.rs. focused_input_index is the Rust i8,
modelled as Int. -/
structure AppState where
  title_input : String
  description_input : String
  focused_input_index : Int
  input_mode : InputMode
  messages : List Snippet
  table_state : TableState
deriving DecidableEq, Repr

/-- Default AppState (impl Default in src/main.rs): empty buffers,
title field focused, Normal mode, no messages, nothing selected. -/
def AppState.defaultState : AppState :=
  { title_input := ""
    description_input := ""
    focused_input_index := INPUT_TITLE_INDEX
    input_mode := InputMode.Normal
    table_state := { selected := none }
    messages := [] }

/-- Wrapping usize subtraction of one, as compiled in release profile:
the source computes messages.len() - 1, which for an empty list wraps
to usize::MAX (a debug build panics there instead). -/
def rusizeSub1 (n : Nat) : Nat :=
  if n = 0 then 2 ^ 64 - 1 else n - 1

/-- AppState::next from src/main.rs: wraps the selection forward, or
selects index 0 when nothing is selected; always stores a selection. -/
def AppState.next (s : AppState) : AppState :=
  let i :=
    match s.table_state.selected with
    | some i => if i ≥ rusizeSub1 s.messages.length then 0 else i + 1
    | none => 0
  { s with table_state := { selected := some i } }

/-- AppState::previous from src/main.rs: wraps the selection backward,
or selects index 0 when nothing is selected; always stores a
selection. -/
def AppState.previous (s : AppState) : AppState :=
  let i :=
    match s.table_state.selected with
    | some i => if i = 0 then rusizeSub1 s.messages.length else i - 1
    | none => 0
  { s with table_state := { selected := some i } }

/-- get_selected_snippet from src/main.rs: the snippet at the selected
index, if a selection exists and is in range. -/
def get_selected_snippet (app : AppState) : Option Snippet :=
  match app.table_state.selected with
  | none => none
  | some selected_index => app.messages.get? selected_index

/-- Key codes relevant to run_app (crossterm KeyCode, restricted to the
constructors the program matches on, with Other standing for every
remaining code). -/
inductive KeyCode
  | Char (c : Char)
  | Delete
  | Backspace
  | Down
  | Up
  | Enter
  | Tab
  | Esc
  | Other
deriving DecidableEq, Repr

/-- Kind of a crossterm key event. -/
inductive KeyEventKind
  | Press
  | Repeat
  | Release
deriving DecidableEq, Repr

/-- One crossterm key event: code plus kind. -/
structure KeyEvent where
  code : KeyCode
  kind : KeyEventKind
deriving DecidableEq, Repr

/-- Outcomes of the external effects one loop iteration may perform:
clipboard acquisition (Clipboard::new), the clipboard write (set_text),
and the persistence write (write_messages_to_file). -/
structure StepEnv where
  clipboard_ok : Bool
  copy_ok : Bool
  write_ok : Bool
deriving DecidableEq, Repr

/-- Result of one iteration of the run_app loop on one key event:
the loop continues with a new state, run_app returns Ok (process
termination path), run_app returns Err (a propagated persistence
write error), or the program panics (Vec::remove with an
out-of-bounds index). -/
inductive StepResult
  | Continue (s : AppState)
  | ReturnOk
  | Fatal
  | Panic
deriving DecidableEq, Repr

/-- One iteration of the run_app match from src/main.rs applied to one
key event. The second component is the serialized JSON handed to
write_messages_to_file when a write was attempted (the write fails
exactly when env.write_ok is false, which run_app propagates as
Fatal). Normal mode processes every event kind (the source only
guards the Editing arm with a Press check). -/
def step (env : StepEnv) (s : AppState) (key : KeyEvent) : StepResult × Option String :=
  match s.input_mode with
  | InputMode.Normal =>
    match key.code with
    | KeyCode.Char c =>
      if c = 'e' then
        (.Continue { s with focused_input_index := INPUT_TITLE_INDEX,
                            input_mode := InputMode.Editing }, none)
      else if c = 'c' then
        if env.clipboard_ok then
          match get_selected_snippet s with
          | none => (.ReturnOk, none)
          | some _snip => if env.copy_ok then (.ReturnOk, none) else (.Continue s, none)
        else (.Continue s, none)
      else if c = 'j' then (.Continue s.next, none)
      else if c = 'k' then (.Continue s.previous, none)
      else if c = 'q' then (.ReturnOk, none)
      else (.Continue s, none)
    | KeyCode.Delete | KeyCode.Backspace =>
      match s.table_state.selected with
      | some selected =>
        if selected < s.messages.length then
          let msgs := s.messages.eraseIdx selected
          let json := to_string msgs
          if env.write_ok then (.Continue { s with messages := msgs }, some json)
          else (.Fatal, some json)
        else (.Panic, none)
      | none => (.Continue s, none)
    | KeyCode.Down => (.Continue s.next, none)
    | KeyCode.Up => (.Continue s.previous, none)
    | _ => (.Continue s, none)
  | InputMode.Editing =>
    if key.kind = KeyEventKind.Press then
      match key.code with
      | KeyCode.Tab =>
        (.Continue { s with
          focused_input_index := (s.focused_input_index + 1) % MAX_INPUT_COUNT }, none)
      | KeyCode.Enter =>
        if s.focused_input_index = MAX_INPUT_COUNT - 1 then
          let snippet : Snippet := ⟨s.title_input, s.description_input⟩
          let msgs := s.messages ++ [snippet]
          let json := to_string msgs
          let s2 := { s with messages := msgs, title_input := "",
                             description_input := "", input_mode := InputMode.Normal }
          if env.write_ok then (.Continue s2, some json) else (.Fatal, some json)
        else
          (.Continue { s with
            focused_input_index := (s.focused_input_index + 1) % MAX_INPUT_COUNT }, none)
      | KeyCode.Char c =>
        if s.focused_input_index = INPUT_TITLE_INDEX then
          (.Continue { s with title_input := s.title_input.push c }, none)
        else if s.focused_input_index = INPUT_DESCRIPTION_INDEX then
          (.Continue { s with description_input := s.description_input.push c }, none)
        else (.Continue s, none)
      | KeyCode.Backspace =>
        if s.focused_input_index = INPUT_TITLE_INDEX then
          (.Continue { s with title_input := s.title_input.dropRight 1 }, none)
        else if s.focused_input_index = INPUT_DESCRIPTION_INDEX then
          (.Continue { s with description_input := s.description_input.dropRight 1 }, none)
        else (.Continue s, none)
      | KeyCode.Esc =>
        (.Continue { s with input_mode := InputMode.Normal }, none)
      | _ => (.Continue s, none)
    else (.Continue s, none)

/-- Result of run_app as seen by main: Ok, or a propagated io::Error
(carried as a descriptive string). -/
inductive RunResult
  | ok
  | err (e : String)
deriving DecidableEq, Repr

/-- Tail of main from src/main.rs after terminal teardown succeeded:
when run_app returned an error it is printed with println (the first
component is the printed line), and main then returns Ok, so the
process exit code (second component) is 0 in both cases. The
setup/teardown question-mark operators are modelled by
mainExitWithTerminal below. -/
def mainHandleResult (res : RunResult) : Option String × Nat :=
  match res with
  | RunResult.ok => (none, 0)
  | RunResult.err e => (some e, 0)

/-- Whole-of-main exit behaviour: a failed terminal setup or teardown
call propagates out of main (Rust then exits with code 1 and reports
on stderr); otherwise main ends via mainHandleResult, whose exit code
is 0 whatever run_app returned. -/
def mainExitWithTerminal (setup_ok teardown_ok : Bool) (res : RunResult) :
    Option String × Nat :=
  if setup_ok = false then (none, 1)
  else if teardown_ok = false then (none, 1)
  else mainHandleResult res

/-- Iterate a state transformer a given number of times. -/
def applyN (f : AppState → AppState) : Nat → AppState → AppState
  | 0, s => s
  | n + 1, s => applyN f n (f s)

/-- Consuming an exact sequence from an input that starts with it
succeeds and returns the rest. -/
theorem consumeExact_append (p r : List Char) : consumeExact p (p ++ r) = some r := by
  induction p with
  | nil => rfl
  | cons c cs ih => simp [consumeExact, ih]

/-- hexVal inverts hexDigitChar on digit values. -/
theorem hexVal_hexDigitChar : ∀ n, n < 16 → hexVal (hexDigitChar n) = some n := by decide

/-- hexVal of the digit zero. -/
theorem hexVal_zero : hexVal '0' = some 0 := by decide

/-- Reading an escaped character from the front of a string body
produces that character and continues with the rest, consuming one
unit of fuel. -/
theorem parseJsonStringBody_escChar (fuel : Nat) (c : Char) (tail : List Char) :
    parseJsonStringBody (fuel + 1) (escChar c ++ tail) =
      (parseJsonStringBody fuel tail).map (fun p => (c :: p.1, p.2)) := by
  by_cases hq : c = '"'
  · simp [escChar, hq, parseJsonStringBody, unescapeOne]
  by_cases hb : c = '\\'
  · simp [escChar, hq, hb, parseJsonStringBody, unescapeOne]
  by_cases h8 : c = Char.ofNat 8
  · simp [escChar, hq, hb, h8, parseJsonStringBody, unescapeOne]
  by_cases h9 : c = Char.ofNat 9
  · simp [escChar, hq, hb, h8, h9, parseJsonStringBody, unescapeOne]
  by_cases h10 : c = Char.ofNat 10
  · simp [escChar, hq, hb, h8, h9, h10, parseJsonStringBody, unescapeOne]
  by_cases h12 : c = Char.ofNat 12
  · simp [escChar, hq, hb, h8, h9, h10, h12, parseJsonStringBody, unescapeOne]
  by_cases h13 : c = Char.ofNat 13
  · simp [escChar, hq, hb, h8, h9, h10, h12, h13, parseJsonStringBody, unescapeOne]
  by_cases hlt : c.toNat < 32
  · have hdiv : c.toNat / 16 < 16 := by omega
    have hmod : c.toNat % 16 < 16 := Nat.mod_lt _ (by norm_num)
    have hchar : Char.ofNat (16 * (c.toNat / 16) + c.toNat % 16) = c := by
      rw [Nat.div_add_mod]; exact Char.ofNat_toNat c
    simp [escChar, hq, hb, h8, h9, h10, h12, h13, hlt, parseJsonStringBody, unescapeOne,
      parseHex4, hexVal_zero, hexVal_hexDigitChar _ hdiv, hexVal_hexDigitChar _ hmod, hchar]
  · simp [escChar, hq, hb, h8, h9, h10, h12, h13, hlt, parseJsonStringBody]

/-- Escaping never shortens a character sequence. -/
theorem length_le_escapeChars (cs : List Char) : cs.length ≤ (escapeChars cs).length := by
  induction cs with
  | nil => simp [escapeChars]
  | cons c cs ih =>
    have h1 : 1 ≤ (escChar c).length := by
      unfold escChar; split_ifs <;> simp
    simp only [escapeChars, List.length_cons, List.length_append]
    omega

/-- Reading back an escaped string body stops at the closing quote and
recovers the original characters, given enough fuel. -/
theorem parseJsonStringBody_escape (cs : List Char) : ∀ (fuel : Nat) (rest : List Char),
    cs.length + 1 ≤ fuel →
    parseJsonStringBody fuel (escapeChars cs ++ '"' :: rest) = some (cs, rest) := by
  induction cs with
  | nil =>
    intro fuel rest hfuel
    match fuel, hfuel with
    | f + 1, _ => simp [escapeChars, parseJsonStringBody]
  | cons c cs ih =>
    intro fuel rest hfuel
    match fuel, hfuel with
    | f + 1, hfuel =>
      have hrec := ih f rest (by simp at hfuel; omega)
      simp only [escapeChars, List.append_assoc, parseJsonStringBody_escChar, hrec,
        Option.map_some']

/-- Reading back an encoded JSON string recovers the original string. -/
theorem parseJsonString_encode (s : String) (rest : List Char) :
    parseJsonString (encodeJsonString s ++ rest) = some (s, rest) := by
  cases s with
  | mk data =>
    have hfuel : data.length + 1 ≤ ('"' :: escapeChars data ++ ['"'] ++ rest).length := by
      have := length_le_escapeChars data
      simp; omega
    have hbody := parseJsonStringBody_escape data
      (('"' :: escapeChars data ++ ['"'] ++ rest).length) rest (by simpa using hfuel)
    simp only [parseJsonString, encodeJsonString]
    simp only [List.cons_append, List.append_assoc, List.singleton_append]
    simp [consumeExact, List.cons_append] at hbody ⊢
    simp [hbody]

/-- Reading back an encoded snippet object recovers the snippet. -/
theorem parseSnippetObj_encode (s : Snippet) (rest : List Char) :
    parseSnippetObj (encodeSnippet s ++ rest) = some (s, rest) := by
  cases s with
  | mk t d =>
    simp only [parseSnippetObj, encodeSnippet, List.append_assoc, consumeExact_append,
      Option.bind_eq_bind, Option.some_bind, parseJsonString_encode]

/-- Every snippet encoding starts with the opening brace. -/
theorem encodeSnippet_head (s : Snippet) :
    ∃ t, encodeSnippet s = lbrace :: t := by
  refine ⟨'"' :: "title".data ++ ['"', ':'] ++ (encodeJsonString s.title ++ descKey ++
    encodeJsonString s.description ++ [rbrace]), ?_⟩
  simp [encodeSnippet, titleKey]

/-- The encoding of a nonempty snippet list starts with the opening
brace of its first object. -/
theorem encodeSnippets_cons_head (s0 : Snippet) (l : List Snippet) :
    ∃ t, encodeSnippets (s0 :: l) = lbrace :: t := by
  obtain ⟨t0, ht0⟩ := encodeSnippet_head s0
  cases l with
  | nil => exact ⟨t0, by simp [encodeSnippets, ht0]⟩
  | cons s1 l' =>
    exact ⟨t0 ++ ',' :: encodeSnippets (s1 :: l'), by simp [encodeSnippets, ht0]⟩

/-- Reading back an encoded nonempty snippet run terminated by the
closing bracket recovers the list, given fuel above its length. -/
theorem parseSnippetListAux_encode (l : List Snippet) : ∀ (s0 : Snippet) (fuel : Nat)
    (rest : List Char), l.length < fuel →
    parseSnippetListAux fuel (encodeSnippets (s0 :: l) ++ ']' :: rest) =
      some (s0 :: l, rest) := by
  induction l with
  | nil =>
    intro s0 fuel rest hfuel
    match fuel, hfuel with
    | f + 1, _ =>
      simp [parseSnippetListAux, encodeSnippets, parseSnippetObj_encode, rbrace]
  | cons s1 l' ih =>
    intro s0 fuel rest hfuel
    match fuel, hfuel with
    | f + 1, hfuel =>
      have hrec := ih s1 f rest (by simp at hfuel ⊢; omega)
      have hobj : parseSnippetObj (encodeSnippet s0 ++
          ',' :: (encodeSnippets (s1 :: l') ++ ']' :: rest)) =
          some (s0, ',' :: (encodeSnippets (s1 :: l') ++ ']' :: rest)) :=
        parseSnippetObj_encode _ _
      simp [parseSnippetListAux, encodeSnippets, hobj, hrec, rbrace]

/-- The snippet list length is bounded by its encoding length. -/
theorem length_le_encodeSnippets (l : List Snippet) :
    l.length ≤ (encodeSnippets l).length := by
  induction l with
  | nil => simp [encodeSnippets]
  | cons s l ih =>
    have h1 : 9 ≤ (encodeSnippet s).length := by
      simp [encodeSnippet, titleKey, descKey, encodeJsonString]
    cases l with
    | nil => simp [encodeSnippets]; omega
    | cons s1 l' =>
      simp only [encodeSnippets, List.length_cons, List.length_append] at ih ⊢
      omega

/-- Deserializing a serialized snippet list recovers the list: the
composition from_str after to_string is the identity (up to some). -/
theorem from_str_to_string (l : List Snippet) : from_str (to_string l) = some l := by
  cases l with
  | nil => rfl
  | cons s0 l' =>
    obtain ⟨t, ht⟩ := encodeSnippets_cons_head s0 l'
    have hlen : l'.length < ('[' :: encodeSnippets (s0 :: l') ++ [']']).length := by
      have h1 := length_le_encodeSnippets (s0 :: l')
      simp at h1 ⊢; omega
    have hparse := parseSnippetListAux_encode l' s0
      (('[' :: encodeSnippets (s0 :: l') ++ [']']).length) [] hlen
    have hlen2 : l'.length < t.length + 1 + 1 + 1 := by
      have h1 := length_le_encodeSnippets (s0 :: l')
      rw [ht] at h1
      simp at h1
      omega
    have hparse := parseSnippetListAux_encode l' s0 (t.length + 1 + 1 + 1) [] hlen2
    rw [ht] at hparse
    simp only [List.cons_append] at hparse
    have hne : lbrace ≠ ']' := by decide
    simp only [from_str, to_string, String.data]
    rw [ht]
    simp [hne, hparse]

/-- Advancing the selection leaves the messages unchanged. -/
theorem next_messages (s : AppState) : (AppState.next s).messages = s.messages := rfl

/-- Retreating the selection leaves the messages unchanged. -/
theorem previous_messages (s : AppState) : (AppState.previous s).messages = s.messages := rfl

/-- With a nonempty list and an in-range selection, next moves the
selection to the successor index modulo the list length. -/
theorem next_selected_mod (s : AppState) (i : Nat)
    (hsel : s.table_state.selected = some i)
    (hi : i < s.messages.length) :
    (AppState.next s).table_state.selected =
      some ((i + 1) % s.messages.length) := by
  have hlen : s.messages.length ≠ 0 := by omega
  simp only [AppState.next, hsel, rusizeSub1, if_neg hlen]
  by_cases htop : i ≥ s.messages.length - 1
  · have hieq : i = s.messages.length - 1 := by omega
    have h1 : i + 1 = s.messages.length := by omega
    simp [htop, h1, Nat.mod_self]
  · have h2 : i + 1 < s.messages.length := by omega
    simp [htop, Nat.mod_eq_of_lt h2]

/-- With a nonempty list and an in-range selection, previous moves the
selection to the predecessor index modulo the list length. -/
theorem previous_selected_mod (s : AppState) (i : Nat)
    (hsel : s.table_state.selected = some i)
    (hi : i < s.messages.length) :
    (AppState.previous s).table_state.selected =
      some ((i + (s.messages.length - 1)) % s.messages.length) := by
  have hlen : s.messages.length ≠ 0 := by omega
  simp only [AppState.previous, hsel, rusizeSub1, if_neg hlen]
  by_cases h0 : i = 0
  · have h1 : s.messages.length - 1 < s.messages.length := by omega
    simp [h0, Nat.mod_eq_of_lt h1]
  · have h2 : i + (s.messages.length - 1) = (i - 1) + s.messages.length := by omega
    have h3 : i - 1 < s.messages.length := by omega
    simp [h0, h2, Nat.add_mod_right, Nat.mod_eq_of_lt h3]

/-- Iterating next k times adds k to the selection modulo the length
and preserves the messages. -/
theorem applyN_next_selected (k : Nat) : ∀ (s : AppState) (i : Nat),
    s.table_state.selected = some i → i < s.messages.length →
    (applyN AppState.next k s).messages = s.messages ∧
    (applyN AppState.next k s).table_state.selected =
      some ((i + k) % s.messages.length) := by
  induction k with
  | zero =>
    intro s i hsel hi
    simp [applyN, hsel, Nat.mod_eq_of_lt hi]
  | succ k ih =>
    intro s i hsel hi
    have hlen : 0 < s.messages.length := by omega
    have hnm : (AppState.next s).messages = s.messages := next_messages s
    have h1 := next_selected_mod s i hsel hi
    have h2 : (i + 1) % s.messages.length < (AppState.next s).messages.length := by
      rw [hnm]; exact Nat.mod_lt _ hlen
    obtain ⟨hm, hs⟩ := ih (AppState.next s) ((i + 1) % s.messages.length) h1 h2
    rw [applyN]
    refine ⟨by rw [hm, hnm], ?_⟩
    rw [hs, hnm]
    rw [Nat.mod_add_mod]
    have harith : i + 1 + k = i + (k + 1) := by omega
    rw [harith]

/-- Iterating previous k times adds k times (length - 1) to the
selection modulo the length and preserves the messages. -/
theorem applyN_previous_selected (k : Nat) : ∀ (s : AppState) (i : Nat),
    s.table_state.selected = some i → i < s.messages.length →
    (applyN AppState.previous k s).messages = s.messages ∧
    (applyN AppState.previous k s).table_state.selected =
      some ((i + k * (s.messages.length - 1)) % s.messages.length) := by
  induction k with
  | zero =>
    intro s i hsel hi
    simp [applyN, hsel, Nat.mod_eq_of_lt hi]
  | succ k ih =>
    intro s i hsel hi
    have hlen : 0 < s.messages.length := by omega
    have hnm : (AppState.previous s).messages = s.messages := previous_messages s
    have h1 := previous_selected_mod s i hsel hi
    have h2 : (i + (s.messages.length - 1)) % s.messages.length <
        (AppState.previous s).messages.length := by
      rw [hnm]; exact Nat.mod_lt _ hlen
    obtain ⟨hm, hs⟩ := ih (AppState.previous s)
      ((i + (s.messages.length - 1)) % s.messages.length) h1 h2
    rw [applyN]
    refine ⟨by rw [hm, hnm], ?_⟩
    rw [hs, hnm]
    rw [Nat.mod_add_mod]
    have harith : i + (s.messages.length - 1) + k * (s.messages.length - 1) =
        i + (k + 1) * (s.messages.length - 1) := by ring
    rw [harith]

/-- Deserializing the empty string is a parse error. -/
theorem from_str_empty : from_str "" = none := rfl

/-- C9: selection wraparound. For every snippet list of length N at
least 1 and every valid selected index, applying next N times returns
the selection to the original index, and applying previous N times
also returns the selection to the original index. -/
theorem c9_selection_wraparound (s : AppState) (i : Nat)
    (hlen : 1 ≤ s.messages.length)
    (hsel : s.table_state.selected = some i)
    (hi : i < s.messages.length) :
    (applyN AppState.next s.messages.length s).table_state.selected = some i ∧
    (applyN AppState.previous s.messages.length s).table_state.selected = some i := by
  constructor
  · obtain ⟨-, hs⟩ := applyN_next_selected s.messages.length s i hsel hi
    rw [hs, Nat.add_mod_right, Nat.mod_eq_of_lt hi]
  · obtain ⟨-, hs⟩ := applyN_previous_selected s.messages.length s i hsel hi
    rw [hs, Nat.mul_comm, Nat.add_mul_mod_self_right, Nat.mod_eq_of_lt hi]

/-- Witness for C9 at a concrete two-element list with selection 1. -/
theorem c9_selection_wraparound_witness :
    (applyN AppState.next 2
      { title_input := "", description_input := "", focused_input_index := 0,
        input_mode := InputMode.Normal, messages := [⟨"a", "b"⟩, ⟨"c", "d"⟩],
        table_state := ⟨some 1⟩ }).table_state.selected = some 1 ∧
    (applyN AppState.previous 2
      { title_input := "", description_input := "", focused_input_index := 0,
        input_mode := InputMode.Normal, messages := [⟨"a", "b"⟩, ⟨"c", "d"⟩],
        table_state := ⟨some 1⟩ }).table_state.selected = some 1 :=
  c9_selection_wraparound
    { title_input := "", description_input := "", focused_input_index := 0,
      input_mode := InputMode.Normal, messages := [⟨"a", "b"⟩, ⟨"c", "d"⟩],
      table_state := ⟨some 1⟩ } 1 (by decide) rfl (by decide)

/-- C6: committing an edit with enter on the last field appends exactly
one snippet built from the two buffers, clears both buffers, returns
the mode to Browsing, and hands the serialization of the full new list
to the persistence write; the earlier snippets are passed through
unchanged as the prefix of the new list. -/
theorem c6_commit_appends_and_clears (s : AppState) (env : StepEnv)
    (hmode : s.input_mode = InputMode.Editing)
    (hfoc : s.focused_input_index = MAX_INPUT_COUNT - 1)
    (hw : env.write_ok = true) :
    step env s ⟨KeyCode.Enter, KeyEventKind.Press⟩ =
      (StepResult.Continue { s with
          messages := s.messages ++ [⟨s.title_input, s.description_input⟩],
          title_input := "", description_input := "",
          input_mode := InputMode.Normal },
        some (to_string (s.messages ++ [⟨s.title_input, s.description_input⟩]))) := by
  simp [step, hmode, hfoc, hw, MAX_INPUT_COUNT]

/-- Witness for C6 at a concrete editing state. -/
theorem c6_commit_witness :
    step ⟨true, true, true⟩
      { title_input := "T", description_input := "D", focused_input_index := 1,
        input_mode := InputMode.Editing, messages := [⟨"a", "b"⟩],
        table_state := ⟨some 0⟩ } ⟨KeyCode.Enter, KeyEventKind.Press⟩ =
      (StepResult.Continue
        { title_input := "", description_input := "", focused_input_index := 1,
          input_mode := InputMode.Normal, messages := [⟨"a", "b"⟩, ⟨"T", "D"⟩],
          table_state := ⟨some 0⟩ },
        some (to_string [⟨"a", "b"⟩, ⟨"T", "D"⟩])) :=
  c6_commit_appends_and_clears
    { title_input := "T", description_input := "D", focused_input_index := 1,
      input_mode := InputMode.Editing, messages := [⟨"a", "b"⟩],
      table_state := ⟨some 0⟩ } ⟨true, true, true⟩ rfl rfl rfl

/-- C7: load never raises an error (its return type is a plain list)
and every read-path failure condition - configuration directory
unavailable, file absent, file unreadable, empty file, or contents
that fail to parse as the expected JSON array shape - yields the empty
snippet list. -/
theorem c7_load_failure_yields_empty (env : FsEnv) (file : Option String)
    (h : env.config_dir_available = false ∨ file = none ∨ env.read_ok = false ∨
      file = some "" ∨ (∃ s, file = some s ∧ from_str s = none)) :
    load_messages_from_file env file = [] := by
  cases hcb : env.config_dir_available with
  | false => simp [load_messages_from_file, hcb]
  | true =>
    cases file with
    | none => simp [load_messages_from_file, hcb]
    | some contents =>
      rcases h with h | h | h | h | ⟨s, hfile, hparse⟩
      · rw [hcb] at h; cases h
      · cases h
      · simp [load_messages_from_file, hcb, h]
      · cases h
        cases hr : env.read_ok <;>
          simp [load_messages_from_file, hcb, hr, from_str_empty]
      · cases hfile
        cases hr : env.read_ok <;>
          simp [load_messages_from_file, hcb, hr, hparse]

/-- Witness for C7 with an unavailable configuration directory. -/
theorem c7_load_failure_witness :
    load_messages_from_file ⟨false, true, true, true⟩ none = [] :=
  c7_load_failure_yields_empty ⟨false, true, true, true⟩ none (Or.inl rfl)

/-- C8: round trip. Saving the serialization of a nonempty snippet
list and loading it back yields the same ordered list (same titles,
descriptions, order), provided the save succeeded (and the resulting
file is readable). -/
theorem c8_save_load_roundtrip (env : FsEnv) (l : List Snippet) (file file2 : Option String)
    (hne : l ≠ [])
    (hw : write_messages_to_file env file (to_string l) = Except.ok file2)
    (hr : env.read_ok = true) :
    load_messages_from_file env file2 = l := by
  unfold write_messages_to_file at hw
  cases hcb : env.config_dir_available with
  | false => rw [hcb] at hw; simp at hw
  | true =>
    rw [hcb] at hw
    cases hcd : env.create_dir_ok with
    | false => rw [hcd] at hw; simp at hw
    | true =>
      rw [hcd] at hw
      cases hwo : env.write_ok with
      | false => rw [hwo] at hw; simp at hw
      | true =>
        rw [hwo] at hw
        simp at hw
        subst hw
        simp [load_messages_from_file, hcb, hr, from_str_to_string]

/-- Witness for C8 at a concrete one-element list. -/
theorem c8_save_load_roundtrip_witness :
    load_messages_from_file ⟨true, true, true, true⟩ (some (to_string [⟨"a", "b"⟩])) =
      [⟨"a", "b"⟩] :=
  c8_save_load_roundtrip ⟨true, true, true, true⟩ [⟨"a", "b"⟩] none
    (some (to_string [⟨"a", "b"⟩])) (by decide) rfl rfl

/-- C10: pressing c in Browsing mode with a clipboard handle but no
selected snippet makes run_app return Ok (the process exits cleanly)
instead of being a no-op. -/
theorem c10_copy_without_selection_exits (s : AppState) (env : StepEnv) (k : KeyEventKind)
    (hmode : s.input_mode = InputMode.Normal)
    (hclip : env.clipboard_ok = true)
    (hsel : get_selected_snippet s = none) :
    (step env s ⟨KeyCode.Char 'c', k⟩).1 = StepResult.ReturnOk := by
  simp [step, hmode, hclip, hsel]

/-- Witness for C10 at the empty initial state. -/
theorem c10_copy_without_selection_witness :
    (step ⟨true, true, true⟩
      { title_input := "", description_input := "", focused_input_index := 0,
        input_mode := InputMode.Normal, messages := [], table_state := ⟨none⟩ }
      ⟨KeyCode.Char 'c', KeyEventKind.Press⟩).1 = StepResult.ReturnOk :=
  c10_copy_without_selection_exits
    { title_input := "", description_input := "", focused_input_index := 0,
      input_mode := InputMode.Normal, messages := [], table_state := ⟨none⟩ }
    ⟨true, true, true⟩ KeyEventKind.Press rfl rfl rfl

/-- C1 (code bug): deleting the selected snippet does not clear or
recompute the selection. From a Browsing state with one snippet
selected at index 0, delete removes the snippet but the selection
stays some 0 while the list is now empty, so it points past the end of
the shortened list; a second delete from that state panics, because
Vec::remove is called with an out-of-bounds index. -/
theorem c1_delete_leaves_stale_selection :
    (step ⟨true, true, true⟩
      { title_input := "", description_input := "", focused_input_index := 0,
        input_mode := InputMode.Normal, messages := [⟨"a", "b"⟩],
        table_state := ⟨some 0⟩ } ⟨KeyCode.Delete, KeyEventKind.Press⟩).1 =
      StepResult.Continue
        { title_input := "", description_input := "", focused_input_index := 0,
          input_mode := InputMode.Normal, messages := [],
          table_state := ⟨some 0⟩ } ∧
    (step ⟨true, true, true⟩
      { title_input := "", description_input := "", focused_input_index := 0,
        input_mode := InputMode.Normal, messages := [],
        table_state := ⟨some 0⟩ } ⟨KeyCode.Delete, KeyEventKind.Press⟩).1 =
      StepResult.Panic := by
  constructor <;> rfl

/-- C4 (code bug): with an empty snippet list and no selection,
pressing j or k is not a no-op: both store selection index 0, an index
into the empty list; a subsequent delete then panics via an
out-of-bounds Vec::remove. -/
theorem c4_empty_list_navigation_not_noop :
    (step ⟨true, true, true⟩
      { title_input := "", description_input := "", focused_input_index := 0,
        input_mode := InputMode.Normal, messages := [], table_state := ⟨none⟩ }
      ⟨KeyCode.Char 'j', KeyEventKind.Press⟩).1 =
      StepResult.Continue
        { title_input := "", description_input := "", focused_input_index := 0,
          input_mode := InputMode.Normal, messages := [], table_state := ⟨some 0⟩ } ∧
    (step ⟨true, true, true⟩
      { title_input := "", description_input := "", focused_input_index := 0,
        input_mode := InputMode.Normal, messages := [], table_state := ⟨none⟩ }
      ⟨KeyCode.Char 'k', KeyEventKind.Press⟩).1 =
      StepResult.Continue
        { title_input := "", description_input := "", focused_input_index := 0,
          input_mode := InputMode.Normal, messages := [], table_state := ⟨some 0⟩ } ∧
    ({ title_input := "", description_input := "", focused_input_index := 0,
       input_mode := InputMode.Normal, messages := [],
       table_state := ⟨some 0⟩ } : AppState) ≠
      { title_input := "", description_input := "", focused_input_index := 0,
        input_mode := InputMode.Normal, messages := [], table_state := ⟨none⟩ } ∧
    (step ⟨true, true, true⟩
      { title_input := "", description_input := "", focused_input_index := 0,
        input_mode := InputMode.Normal, messages := [], table_state := ⟨some 0⟩ }
      ⟨KeyCode.Delete, KeyEventKind.Press⟩).1 = StepResult.Panic := by
  refine ⟨rfl, rfl, by decide, rfl⟩

/-- C2 counterexample: in a Browsing state with a valid selection and
an acquired clipboard handle, a failed copy does not terminate the
loop; run_app keeps running with the state unchanged. -/
theorem c2_copy_failure_keeps_running :
    (step ⟨true, false, true⟩
      { title_input := "", description_input := "", focused_input_index := 0,
        input_mode := InputMode.Normal, messages := [⟨"a", "b"⟩],
        table_state := ⟨some 0⟩ } ⟨KeyCode.Char 'c', KeyEventKind.Press⟩).1 =
      StepResult.Continue
        { title_input := "", description_input := "", focused_input_index := 0,
          input_mode := InputMode.Normal, messages := [⟨"a", "b"⟩],
          table_state := ⟨some 0⟩ } ∧
    (step ⟨true, false, true⟩
      { title_input := "", description_input := "", focused_input_index := 0,
        input_mode := InputMode.Normal, messages := [⟨"a", "b"⟩],
        table_state := ⟨some 0⟩ } ⟨KeyCode.Char 'c', KeyEventKind.Press⟩).1 ≠
      StepResult.ReturnOk := by
  refine ⟨rfl, by decide⟩

/-- C2 (amended): in Browsing mode with a selection and a clipboard
handle, pressing c terminates the loop when the copy succeeds; when
the copy fails the loop continues with the state unchanged. -/
theorem c2_copy_exit_amended (s : AppState) (env : StepEnv) (k : KeyEventKind)
    (snip : Snippet)
    (hmode : s.input_mode = InputMode.Normal)
    (hclip : env.clipboard_ok = true)
    (hsel : get_selected_snippet s = some snip) :
    (env.copy_ok = true → (step env s ⟨KeyCode.Char 'c', k⟩).1 = StepResult.ReturnOk) ∧
    (env.copy_ok = false → (step env s ⟨KeyCode.Char 'c', k⟩).1 = StepResult.Continue s) := by
  constructor <;> intro hcopy <;> simp [step, hmode, hclip, hsel, hcopy]

/-- Witness for the amended C2 at a concrete selected state, in both
copy outcomes. -/
theorem c2_copy_exit_amended_witness :
    ((true = true → (step ⟨true, true, true⟩
      { title_input := "", description_input := "", focused_input_index := 0,
        input_mode := InputMode.Normal, messages := [⟨"a", "b"⟩],
        table_state := ⟨some 0⟩ } ⟨KeyCode.Char 'c', KeyEventKind.Press⟩).1 =
        StepResult.ReturnOk) ∧
      (true = false → (step ⟨true, true, true⟩
      { title_input := "", description_input := "", focused_input_index := 0,
        input_mode := InputMode.Normal, messages := [⟨"a", "b"⟩],
        table_state := ⟨some 0⟩ } ⟨KeyCode.Char 'c', KeyEventKind.Press⟩).1 =
        StepResult.Continue
          { title_input := "", description_input := "", focused_input_index := 0,
            input_mode := InputMode.Normal, messages := [⟨"a", "b"⟩],
            table_state := ⟨some 0⟩ })) :=
  c2_copy_exit_amended
    { title_input := "", description_input := "", focused_input_index := 0,
      input_mode := InputMode.Normal, messages := [⟨"a", "b"⟩],
      table_state := ⟨some 0⟩ } ⟨true, true, true⟩ KeyEventKind.Press ⟨"a", "b"⟩
    rfl rfl rfl

/-- C3 counterexample: a persistence write failure propagated out of
run_app is printed by main, but main then returns Ok, so the process
exit code is 0, not a non-zero failure. -/
theorem c3_write_error_exit_code_zero :
    mainHandleResult (RunResult.err "write failed") = (some "write failed", 0) ∧
    mainExitWithTerminal true true (RunResult.err "write failed") =
      (some "write failed", 0) := by
  constructor <;> rfl

/-- C3 (amended): a propagated persistence write error is printed to
standard output but the process still exits with code 0, exactly as a
clean shutdown does; a non-zero exit arises only from terminal
setup/teardown failures, whose error is not printed by main. -/
theorem c3_exit_codes_amended (e : String) (res : RunResult) :
    mainExitWithTerminal true true (RunResult.err e) = (some e, 0) ∧
    mainExitWithTerminal true true RunResult.ok = (none, 0) ∧
    mainExitWithTerminal false true res = (none, 1) ∧
    mainExitWithTerminal true false res = (none, 1) := by
  exact ⟨rfl, rfl, rfl, rfl⟩

/-- C5 counterexample: a Browsing state with a nonempty title buffer
is reachable. Starting from the initial state, press e (enter Editing),
type a (title buffer becomes "a"), then press escape: the resulting
state is in Browsing mode with title buffer "a", so the buffers-empty
invariant fails after leaving Editing via escape. -/
theorem c5_escape_keeps_buffers_counterexample :
    ∃ s1 s2 s3 : AppState,
      (step ⟨true, true, true⟩
        { title_input := "", description_input := "", focused_input_index := 0,
          input_mode := InputMode.Normal, messages := [], table_state := ⟨none⟩ }
        ⟨KeyCode.Char 'e', KeyEventKind.Press⟩).1 = StepResult.Continue s1 ∧
      (step ⟨true, true, true⟩ s1 ⟨KeyCode.Char 'a', KeyEventKind.Press⟩).1 =
        StepResult.Continue s2 ∧
      (step ⟨true, true, true⟩ s2 ⟨KeyCode.Esc, KeyEventKind.Press⟩).1 =
        StepResult.Continue s3 ∧
      s3.input_mode = InputMode.Normal ∧ s3.title_input = "a" ∧ s3.title_input ≠ "" := by
  refine ⟨_, _, _, rfl, rfl, rfl, rfl, rfl, by decide⟩

/-- C5 (amended): leaving Editing via commit reaches Browsing with
both buffers empty, but leaving via escape reaches Browsing with both
buffers exactly as they were, so the buffers-empty invariant holds
after a commit but not after an escape with nonempty buffers. -/
theorem c5_browsing_buffers_amended (s : AppState) (env : StepEnv)
    (hmode : s.input_mode = InputMode.Editing) :
    (∀ s2 : AppState,
      (step env s ⟨KeyCode.Esc, KeyEventKind.Press⟩).1 = StepResult.Continue s2 →
      s2.input_mode = InputMode.Normal ∧ s2.title_input = s.title_input ∧
        s2.description_input = s.description_input) ∧
    (s.focused_input_index = MAX_INPUT_COUNT - 1 → env.write_ok = true →
      ∀ s2 : AppState,
      (step env s ⟨KeyCode.Enter, KeyEventKind.Press⟩).1 = StepResult.Continue s2 →
      s2.input_mode = InputMode.Normal ∧ s2.title_input = "" ∧
        s2.description_input = "") := by
  constructor
  · intro s2 h
    simp [step, hmode] at h
    rw [← h]
    exact ⟨rfl, rfl, rfl⟩
  · intro hfoc hw s2 h
    simp [step, hmode, hfoc, hw, MAX_INPUT_COUNT] at h
    rw [← h]
    exact ⟨rfl, rfl, rfl⟩

/-- Witness for the amended C5: escaping an edit with buffers "x"/"y"
reaches Browsing mode with the buffers still "x"/"y". -/
theorem c5_browsing_buffers_amended_witness :
    ({ title_input := "x", description_input := "y", focused_input_index := 1,
       input_mode := InputMode.Normal, messages := [],
       table_state := ⟨none⟩ } : AppState).input_mode = InputMode.Normal ∧
    ({ title_input := "x", description_input := "y", focused_input_index := 1,
       input_mode := InputMode.Normal, messages := [],
       table_state := ⟨none⟩ } : AppState).title_input = "x" ∧
    ({ title_input := "x", description_input := "y", focused_input_index := 1,
       input_mode := InputMode.Normal, messages := [],
       table_state := ⟨none⟩ } : AppState).description_input = "y" :=
  (c5_browsing_buffers_amended
    { title_input := "x", description_input := "y", focused_input_index := 1,
      input_mode := InputMode.Editing, messages := [], table_state := ⟨none⟩ }
    ⟨true, true, true⟩ rfl).1
    { title_input := "x", description_input := "y", focused_input_index := 1,
      input_mode := InputMode.Normal, messages := [], table_state := ⟨none⟩ } rfl
